import Mathlib

/-!
Verification of the InterTask contract protocol (src/index.js, contract part).

The contract is a deterministic state machine over an abstract key-value /
named-set / counter store.  Transactions (add_task, complete_task,
cancel_task) mutate the store; views (list_tasks, get_task, stats) only read
it.  The definitions below are a statement-by-statement shallow embedding of
the JavaScript handlers; JavaScript parameter bags are modelled by `JSValue`
so that truthiness checks and runtime type errors are captured faithfully.
-/

namespace InterTask

/-- A JavaScript value as it can appear in a transaction parameter bag. -/
inductive JSValue where
  | str (s : String)
  | num (n : Int)
  | boolv (b : Bool)
  | nullv
  | undef
deriving DecidableEq

/-- JavaScript truthiness: empty string, 0, false, null and undefined are
falsy, everything else is truthy. -/
def JSValue.truthy : JSValue → Bool
  | .str s => !(s == "")
  | .num n => !(n == 0)
  | .boolv b => b
  | .nullv => false
  | .undef => false

/-- How a JavaScript value prints inside a template literal. -/
def JSValue.interp : JSValue → String
  | .str s => s
  | .num n => toString n
  | .boolv true => "true"
  | .boolv false => "false"
  | .nullv => "null"
  | .undef => "undefined"

/-- The Task record persisted at key task:<id>.  completed_by / cancelled_by
are absent until the corresponding terminal transition. -/
structure Task where
  id : String
  title : String
  desc : String
  assignee : JSValue
  creator : String
  status : String
  created_at : Nat
  updated_at : Nat
  completed_by : Option String := none
  cancelled_by : Option String := none
deriving DecidableEq

/-- The abstract state store: counters (increment), a key-value table of
Task records (get/set) and named sets of task ids (sadd/srem/smembers). -/
structure Store where
  counters : String → Nat
  kv : String → Option Task
  sets : String → List String

/-- The store every node starts from. -/
def Store.empty : Store := ⟨fun _ => 0, fun _ => none, fun _ => []⟩

/-- state.increment(key): atomic increment returning the new value; the
first call on an unseen key returns 1. -/
def Store.increment (st : Store) (key : String) : Nat × Store :=
  let v := st.counters key + 1
  (v, { st with counters := fun k => if k = key then v else st.counters k })

/-- state.set(key, value): upsert. -/
def Store.set (st : Store) (key : String) (t : Task) : Store :=
  { st with kv := fun k => if k = key then some t else st.kv k }

/-- state.get(key). -/
def Store.get (st : Store) (key : String) : Option Task := st.kv key

/-- state.sadd(key, member): adding an existing member is a no-op. -/
def Store.sadd (st : Store) (key member : String) : Store :=
  if member ∈ st.sets key then st
  else { st with sets := fun k => if k = key then st.sets key ++ [member] else st.sets k }

/-- state.srem(key, member). -/
def Store.srem (st : Store) (key member : String) : Store :=
  { st with
    sets := fun k =>
      if k = key then (st.sets key).filter (fun m => decide (m ≠ member)) else st.sets k }

/-- state.smembers(key). -/
def Store.smembers (st : Store) (key : String) : List String := st.sets key

/-- The Task record stored for a given task id. -/
def Store.getTask (st : Store) (id : String) : Option Task := st.get ("task:" ++ id)

/-- The error taxonomy of the contract; each constructor carries the thrown
message. -/
inductive ContractError where
  | validationError (msg : String)
  | notFoundError (msg : String)
  | invalidStateError (msg : String)
  | authorizationError (msg : String)
deriving DecidableEq

/-- What running a handler produces: a normal return value, a thrown
contract error, or a JavaScript runtime fault (TypeError). -/
inductive Outcome (α : Type) where
  | ok (v : α)
  | err (e : ContractError)
  | fault (msg : String)
deriving DecidableEq

/-- Ambient inputs a handler reads besides the store: the wall clock
(Date.now()) and the external admin-membership collaborator
(peer.isAdmin). -/
structure Env where
  now : Nat
  isAdmin : String → Bool

/-- The parameter bag of add_task; a missing property reads as undefined. -/
structure AddParams where
  title : JSValue := .undef
  desc : JSValue := .undef
  assignee : JSValue := .undef
deriving DecidableEq

/-- Model of JavaScript String.prototype.trim: strip leading and trailing
whitespace. -/
def jsTrim (s : String) : String :=
  ⟨((s.data.dropWhile Char.isWhitespace).reverse.dropWhile Char.isWhitespace).reverse⟩

/-- The JavaScript test v.length > bound: reading .length of null raises a
TypeError (the .error case carries its message); a number or boolean has no
length property, so the comparison undefined > bound is false. -/
def jsLengthGT (v : JSValue) (bound : Nat) : Except String Bool :=
  match v with
  | .str s => .ok (decide (s.length > bound))
  | .nullv => .error "TypeError: cannot read length of null"
  | .undef => .error "TypeError: cannot read length of undefined"
  | _ => .ok false

/-- The JavaScript call v.trim(): only strings have a trim method, any
other receiver raises a TypeError. -/
def jsTrimVal (v : JSValue) : Except String String :=
  match v with
  | .str s => .ok (jsTrim s)
  | _ => .error "TypeError: desc.trim is not a function"

/-- The default applied when destructuring a parameter bag: the fallback
replaces the value only when it is undefined. -/
def jsDefault (v dflt : JSValue) : JSValue :=
  if v = .undef then dflt else v

@[simp] theorem jsDefault_str (s : String) (d : JSValue) :
    jsDefault (.str s) d = .str s := rfl

@[simp] theorem jsDefault_undef (d : JSValue) : jsDefault .undef d = d := rfl

/-- JavaScript String(n).padStart(6, '0'): left-pad with zeros up to six
characters; longer strings are returned unchanged. -/
def padStart6 (s : String) : String :=
  ⟨List.replicate (6 - s.length) '0' ++ s.data⟩

/-- The task id allocated in add_task from the new counter value. -/
def mkTaskId (n : Nat) : String :=
  "task_" ++ padStart6 (Nat.repr n)

/-- Transaction add_task, translated statement by statement from the
contract protocol.  The returned store is the store at the moment the
handler returns or throws: destructure params with defaults (desc defaults
to the empty string, assignee to null, both only when undefined), validate
title and desc, then increment task_seq, build the Task with trimmed title
and desc, persist it and index it. -/
def add_task (env : Env) (signer : String) (params : AddParams) (st : Store) :
    Outcome Task × Store :=
  match params.title with
  | .str titleS =>
    if titleS = "" then (.err (.validationError "title is required"), st)
    else if titleS.length > 140 then
      (.err (.validationError "title exceeds 140 characters"), st)
    else
      match jsLengthGT (jsDefault params.desc (.str "")) 1000 with
      | .error m => (.fault m, st)
      | .ok true => (.err (.validationError "desc exceeds 1000 characters"), st)
      | .ok false =>
        match st.increment "task_seq" with
        | (seq, st2) =>
          match jsTrimVal (jsDefault params.desc (.str "")) with
          | .error m => (.fault m, st2)
          | .ok descT =>
            let taskId := mkTaskId seq
            let task : Task :=
              { id := taskId, title := jsTrim titleS, desc := descT,
                assignee := jsDefault params.assignee .nullv, creator := signer,
                status := "open", created_at := env.now, updated_at := env.now }
            let st3 := st2.set ("task:" ++ taskId) task
            let st4 := st3.sadd "tasks:all" taskId
            let st5 := st4.sadd "tasks:open" taskId
            let st6 :=
              if (jsDefault params.assignee .nullv).truthy then
                st5.sadd ("tasks:assignee:" ++ (jsDefault params.assignee .nullv).interp)
                  taskId
              else st5
            (.ok task, st6)
  | _ =>
    (.err (.validationError "title is required"), st)

/-- Transaction complete_task: only the creator or the assignee of an open
task may complete it; the admin capability plays no role here. -/
def complete_task (env : Env) (signer id : String) (st : Store) :
    Outcome Task × Store :=
  if id = "" then (.err (.validationError "id is required"), st)
  else
    match st.get ("task:" ++ id) with
    | none => (.err (.notFoundError ("Task " ++ id ++ " not found")), st)
    | some task =>
      if task.status ≠ "open" then
        (.err (.invalidStateError
          ("Task " ++ id ++ " is not open (status: " ++ task.status ++ ")")), st)
      else if !(task.creator == signer || task.assignee == .str signer) then
        (.err (.authorizationError
          "Only the creator or assignee may complete this task"), st)
      else
        let task : Task :=
          { task with
            status := "completed"
            updated_at := env.now
            completed_by := some signer }
        let st := st.set ("task:" ++ id) task
        let st := st.srem "tasks:open" id
        let st := st.sadd "tasks:completed" id
        (.ok task, st)

/-- Transaction cancel_task: only the creator or an admin (queried from the
external collaborator) may cancel an open task; the assignee alone may
not. -/
def cancel_task (env : Env) (signer id : String) (st : Store) :
    Outcome Task × Store :=
  if id = "" then (.err (.validationError "id is required"), st)
  else
    match st.get ("task:" ++ id) with
    | none => (.err (.notFoundError ("Task " ++ id ++ " not found")), st)
    | some task =>
      if task.status ≠ "open" then
        (.err (.invalidStateError ("Task " ++ id ++ " is not open")), st)
      else
        if task.creator ≠ signer ∧ env.isAdmin signer = false then
          (.err (.authorizationError
            "Only the creator or an admin may cancel this task"), st)
        else
          let task : Task :=
            { task with
              status := "cancelled"
              updated_at := env.now
              cancelled_by := some signer }
          let st := st.set ("task:" ++ id) task
          let st := st.srem "tasks:open" id
          let st := st.sadd "tasks:cancelled" id
          (.ok task, st)

/-- Parameters of the list_tasks view as the program's CLI produces them:
each filter is a string or null (undefined reads the same as null here). -/
structure ListParams where
  status : Option String := none
  assignee : Option String := none
deriving DecidableEq

/-- Truthiness of an optional string parameter: null, undefined and the
empty string are falsy. -/
def optTruthy : Option String → Bool
  | none => false
  | some s => !(s == "")

/-- Result shape of list_tasks. -/
structure ListResult where
  tasks : List Task
  count : Nat
deriving DecidableEq

/-- The loop body of list_tasks: fetch the Task for a candidate id, skip it
when absent, and keep it when the status filter is absent or matches. -/
def taskFilter (st : Store) (status : Option String) (id : String) : Option Task :=
  match st.get ("task:" ++ id) with
  | some t =>
    if !optTruthy status || t.status == status.getD "" then some t else none
  | none => none

/-- The sort comparator of list_tasks: descending by created_at.  The
JavaScript sort is stable, as is List.mergeSort. -/
def byCreatedDesc (a b : Task) : Bool := decide (b.created_at ≤ a.created_at)

/-- The candidate id set of list_tasks: the assignee index when an assignee
filter is given, else the status index when a status filter is given, else
tasks:all. -/
def candidateIds (st : Store) (params : ListParams) : List String :=
  if optTruthy params.assignee then
    st.smembers ("tasks:assignee:" ++ params.assignee.getD "")
  else if optTruthy params.status then
    st.smembers ("tasks:" ++ params.status.getD "")
  else st.smembers "tasks:all"

/-- View list_tasks: pick the candidate id set, fetch and filter the
records, sort them newest first and count them. -/
def list_tasks (st : Store) (params : ListParams) : ListResult :=
  { tasks := ((candidateIds st params).filterMap
      (taskFilter st params.status)).mergeSort byCreatedDesc
    count := (((candidateIds st params).filterMap
      (taskFilter st params.status)).mergeSort byCreatedDesc).length }

/-- View get_task. -/
def get_task (st : Store) (id : String) : Outcome Task :=
  if id = "" then .err (.validationError "id is required")
  else
    match st.get ("task:" ++ id) with
    | none => .err (.notFoundError ("Task " ++ id ++ " not found"))
    | some t => .ok t

/-- Result shape of the stats view. -/
structure StatsResult where
  total : Nat
  «open» : Nat
  completed : Nat
  cancelled : Nat
deriving DecidableEq

/-- View stats: the cardinalities of the four index sets. -/
def stats (st : Store) : StatsResult :=
  { total := (st.smembers "tasks:all").length
    «open» := (st.smembers "tasks:open").length
    completed := (st.smembers "tasks:completed").length
    cancelled := (st.smembers "tasks:cancelled").length }

/-- A replicated operation as the program's own front end submits it: title
and desc are strings (the CLI defaults desc to the empty string), assignee
is a string or null. -/
inductive Op where
  | add (signer title desc : String) (assignee : Option String)
  | complete (signer id : String)
  | cancel (signer id : String)
deriving DecidableEq

/-- Run one operation: dispatch to the matching transaction handler, under
a given admin-membership collaborator and a given wall-clock reading. -/
def runOp (isAdmin : String → Bool) (now : Nat) (op : Op) (st : Store) :
    Outcome Task × Store :=
  match op with
  | .add signer title desc assignee =>
    add_task ⟨now, isAdmin⟩ signer
      { title := .str title, desc := .str desc,
        assignee := match assignee with | some a => .str a | none => .nullv } st
  | .complete signer id => complete_task ⟨now, isAdmin⟩ signer id st
  | .cancel signer id => cancel_task ⟨now, isAdmin⟩ signer id st

/-- Apply an ordered operation sequence; the clock list supplies the value
Date.now() returns at each successive application. -/
def applyOps (isAdmin : String → Bool) : List Op → List Nat → Store → Store
  | [], _, st => st
  | op :: ops, clock, st =>
    applyOps isAdmin ops clock.tail (runOp isAdmin (clock.headD 0) op st).2

/-- What an operation outcome contributes to the list of created ids: a
successful add_task contributes the new task id, everything else nothing. -/
def createdOf (op : Op) (out : Outcome Task) : List String :=
  match op, out with
  | .add _ _ _ _, .ok t => [t.id]
  | _, _ => []

/-- The ids of the tasks created by the successful add_task operations of a
run, in order of application. -/
def createdIds (isAdmin : String → Bool) : List Op → List Nat → Store → List String
  | [], _, _ => []
  | op :: ops, clock, st =>
    createdOf op (runOp isAdmin (clock.headD 0) op st).1
      ++ createdIds isAdmin ops clock.tail (runOp isAdmin (clock.headD 0) op st).2

/-! ### Reading the decimal digits of a task id back as a number -/

/-- Value of a decimal digit character. -/
def digVal (c : Char) : Nat := c.toNat - 48

/-- Read a list of decimal digit characters as a number. -/
def parseDigits (l : List Char) : Nat := l.foldl (fun a c => 10 * a + digVal c) 0

/-- The number obtained by appending the decimal digits of n to an
accumulator a. -/
def shiftAcc (a n : Nat) : Nat :=
  if h : n < 10 then 10 * a + n
  else 10 * shiftAcc a (n / 10) + n % 10
decreasing_by exact Nat.div_lt_self (by omega) (by omega)

theorem digVal_digitChar {m : Nat} (h : m < 10) : digVal (Nat.digitChar m) = m := by
  interval_cases m <;> decide

theorem shiftAcc_zero (n : Nat) : shiftAcc 0 n = n := by
  induction n using Nat.strong_induction_on with
  | _ n ih =>
    rw [shiftAcc]
    split
    · omega
    · rename_i h
      rw [ih (n / 10) (Nat.div_lt_self (by omega) (by omega))]
      omega

theorem toDigitsCore_foldl :
    ∀ (fuel n : Nat) (ds : List Char) (a : Nat), n < fuel →
      (Nat.toDigitsCore 10 fuel n ds).foldl (fun x c => 10 * x + digVal c) a
        = ds.foldl (fun x c => 10 * x + digVal c) (shiftAcc a n) := by
  intro fuel
  induction fuel with
  | zero => intro n ds a h; exact absurd h (Nat.not_lt_zero n)
  | succ f ih =>
    intro n ds a h
    simp only [Nat.toDigitsCore]
    split
    · rename_i h0
      have hn : n < 10 := by omega
      simp only [List.foldl]
      rw [digVal_digitChar (by omega : n % 10 < 10)]
      have hs : shiftAcc a n = 10 * a + n := by
        rw [shiftAcc]; rw [dif_pos hn]
      rw [hs, Nat.mod_eq_of_lt hn]
    · rename_i h0
      have h1 : n / 10 < f := by
        have h2 : n / 10 < n := Nat.div_lt_self (by omega) (by omega)
        omega
      rw [ih (n / 10) _ a h1]
      simp only [List.foldl]
      rw [digVal_digitChar (by omega : n % 10 < 10)]
      have hs : shiftAcc a n = 10 * shiftAcc a (n / 10) + n % 10 := by
        rw [shiftAcc]; rw [dif_neg (by omega : ¬ n < 10)]
      rw [hs]

theorem parseDigits_toDigits (n : Nat) : parseDigits (Nat.toDigits 10 n) = n := by
  unfold Nat.toDigits parseDigits
  rw [toDigitsCore_foldl (n + 1) n [] 0 (Nat.lt_succ_self n)]
  simp only [List.foldl]
  exact shiftAcc_zero n

theorem parseDigits_cons_zero (t : List Char) :
    parseDigits ('0' :: t) = parseDigits t := by
  have h : (10 : Nat) * 0 + digVal '0' = 0 := by decide
  simp only [parseDigits, List.foldl]
  rw [h]

theorem parseDigits_pad (z : Nat) (l : List Char) :
    parseDigits (List.replicate z '0' ++ l) = parseDigits l := by
  induction z with
  | zero => simp
  | succ k ih =>
    rw [List.replicate_succ, List.cons_append, parseDigits_cons_zero, ih]

theorem repr_data_eq (n : Nat) : (Nat.repr n).data = Nat.toDigits 10 n := rfl

/-- Two distinct counter values yield distinct task ids: padding with
zeros and the task_ tag are both invertible. -/
theorem mkTaskId_injective : Function.Injective mkTaskId := by
  intro m n h
  unfold mkTaskId padStart6 at h
  have h2 := congrArg String.data h
  simp only [String.data_append] at h2
  have h3 := List.append_cancel_left h2
  have h4 := congrArg parseDigits h3
  rw [parseDigits_pad, parseDigits_pad, repr_data_eq, repr_data_eq,
    parseDigits_toDigits, parseDigits_toDigits] at h4
  exact h4

/-! ### Store algebra -/

@[simp] theorem counters_set (st : Store) (k : String) (t : Task) :
    (st.set k t).counters = st.counters := rfl

@[simp] theorem counters_sadd (st : Store) (k m : String) :
    (st.sadd k m).counters = st.counters := by
  unfold Store.sadd; split <;> rfl

@[simp] theorem counters_srem (st : Store) (k m : String) :
    (st.srem k m).counters = st.counters := rfl

@[simp] theorem counters_increment (st : Store) (k k2 : String) :
    ((st.increment k).2).counters k2 = if k2 = k then st.counters k + 1 else st.counters k2 := rfl

@[simp] theorem smembers_set (st : Store) (k : String) (t : Task) (k2 : String) :
    (st.set k t).smembers k2 = st.smembers k2 := rfl

@[simp] theorem smembers_increment (st : Store) (k k2 : String) :
    ((st.increment k).2).smembers k2 = st.smembers k2 := rfl

@[simp] theorem getTask_sadd (st : Store) (k m id : String) :
    (st.sadd k m).getTask id = st.getTask id := by
  unfold Store.sadd Store.getTask Store.get; split <;> rfl

@[simp] theorem getTask_srem (st : Store) (k m id : String) :
    (st.srem k m).getTask id = st.getTask id := rfl

@[simp] theorem getTask_increment (st : Store) (k id : String) :
    ((st.increment k).2).getTask id = st.getTask id := rfl

theorem taskKey_inj {i j : String} (h : "task:" ++ i = "task:" ++ j) : i = j := by
  have h2 := congrArg String.data h
  simp only [String.data_append] at h2
  exact String.ext (List.append_cancel_left h2)

@[simp] theorem getTask_set (st : Store) (i : String) (t : Task) (j : String) :
    (st.set ("task:" ++ i) t).getTask j = if j = i then some t else st.getTask j := by
  unfold Store.set Store.getTask Store.get
  by_cases h : j = i
  · subst h; simp
  · rw [if_neg h]
    show (if "task:" ++ j = "task:" ++ i then some t else st.kv ("task:" ++ j))
        = st.kv ("task:" ++ j)
    rw [if_neg (fun hc => h (taskKey_inj hc))]

theorem smembers_sadd_self (st : Store) (k m : String) :
    (st.sadd k m).smembers k =
      if m ∈ st.smembers k then st.smembers k else st.smembers k ++ [m] := by
  unfold Store.sadd Store.smembers
  split <;> simp_all

theorem smembers_sadd_ne (st : Store) (k m k2 : String) (h : k2 ≠ k) :
    (st.sadd k m).smembers k2 = st.smembers k2 := by
  unfold Store.sadd Store.smembers
  split
  · rfl
  · simp only []
    rw [if_neg h]

theorem mem_sadd_self (st : Store) (k m id : String) :
    id ∈ (st.sadd k m).smembers k ↔ id ∈ st.smembers k ∨ id = m := by
  rw [smembers_sadd_self]
  split <;> rename_i h
  · constructor
    · exact fun hm => Or.inl hm
    · rintro (hm | rfl)
      · exact hm
      · exact h
  · simp

theorem nodup_sadd_self (st : Store) (k m : String)
    (h : (st.smembers k).Nodup) : ((st.sadd k m).smembers k).Nodup := by
  rw [smembers_sadd_self]
  split <;> rename_i hm
  · exact h
  · exact ((List.perm_append_singleton m _).nodup_iff).mpr (List.Nodup.cons hm h)

theorem smembers_srem_self (st : Store) (k m : String) :
    (st.srem k m).smembers k = (st.smembers k).filter (fun x => decide (x ≠ m)) := by
  unfold Store.srem Store.smembers
  simp

theorem smembers_srem_ne (st : Store) (k m k2 : String) (h : k2 ≠ k) :
    (st.srem k m).smembers k2 = st.smembers k2 := by
  unfold Store.srem Store.smembers
  simp only []
  rw [if_neg h]

theorem mem_srem_self (st : Store) (k m id : String) :
    id ∈ (st.srem k m).smembers k ↔ id ∈ st.smembers k ∧ id ≠ m := by
  rw [smembers_srem_self]
  simp

theorem nodup_srem_self (st : Store) (k m : String)
    (h : (st.smembers k).Nodup) : ((st.srem k m).smembers k).Nodup := by
  rw [smembers_srem_self]
  exact h.filter _

/-! ### Key names never collide -/

theorem assigneeKey_ne_all (a : String) : "tasks:assignee:" ++ a ≠ "tasks:all" := by
  intro h
  have h2 := congrArg (fun s => s.data.take 8) h
  simp only [String.data_append] at h2
  rw [List.take_append_of_le_length (by decide)] at h2
  exact absurd h2 (by decide)

theorem assigneeKey_ne_open (a : String) : "tasks:assignee:" ++ a ≠ "tasks:open" := by
  intro h
  have h2 := congrArg (fun s => s.data.take 8) h
  simp only [String.data_append] at h2
  rw [List.take_append_of_le_length (by decide)] at h2
  exact absurd h2 (by decide)

theorem assigneeKey_ne_completed (a : String) :
    "tasks:assignee:" ++ a ≠ "tasks:completed" := by
  intro h
  have h2 := congrArg (fun s => s.data.take 8) h
  simp only [String.data_append] at h2
  rw [List.take_append_of_le_length (by decide)] at h2
  exact absurd h2 (by decide)

theorem assigneeKey_ne_cancelled (a : String) :
    "tasks:assignee:" ++ a ≠ "tasks:cancelled" := by
  intro h
  have h2 := congrArg (fun s => s.data.take 8) h
  simp only [String.data_append] at h2
  rw [List.take_append_of_le_length (by decide)] at h2
  exact absurd h2 (by decide)

/-! ### Handler characterizations on the parameters the front end submits -/

/-- The assignee parameter after the null default. -/
def assigneeVal : Option String → JSValue
  | some a => .str a
  | none => .nullv

/-- The Task returned by a successful add_task. -/
def addOkTask (env : Env) (signer title desc : String) (a : JSValue)
    (st : Store) : Task :=
  ⟨mkTaskId (st.counters "task_seq" + 1), jsTrim title, jsTrim desc,
    a, signer, "open", env.now, env.now, none, none⟩

/-- The store chain written by a successful add_task before the optional
assignee indexing. -/
def addOkBase (env : Env) (signer title desc : String) (a : JSValue)
    (st : Store) : Store :=
  ((((st.increment "task_seq").2).set
      ("task:" ++ mkTaskId (st.counters "task_seq" + 1))
      (addOkTask env signer title desc a st)).sadd
    "tasks:all" (mkTaskId (st.counters "task_seq" + 1))).sadd
    "tasks:open" (mkTaskId (st.counters "task_seq" + 1))

/-- The store written by a successful add_task. -/
def addOkStore (env : Env) (signer title desc : String) (a : JSValue)
    (st : Store) : Store :=
  if a.truthy then
    (addOkBase env signer title desc a st).sadd
      ("tasks:assignee:" ++ a.interp)
      (mkTaskId (st.counters "task_seq" + 1))
  else addOkBase env signer title desc a st

/-- add_task on a string title (d is the desc string after the empty-string
default): the three validation checks in order, then the allocation and
writes. -/
theorem add_task_eval_str (env : Env) (signer s : String) (descv aj : JSValue)
    (d : String) (st : Store) (hd : jsDefault descv (.str "") = .str d) :
    add_task env signer ⟨.str s, descv, aj⟩ st =
      if s = "" then (.err (.validationError "title is required"), st)
      else if s.length > 140 then
        (.err (.validationError "title exceeds 140 characters"), st)
      else if d.length > 1000 then
        (.err (.validationError "desc exceeds 1000 characters"), st)
      else (.ok (addOkTask env signer s d (jsDefault aj .nullv) st),
            addOkStore env signer s d (jsDefault aj .nullv) st) := by
  unfold add_task
  simp only [hd]
  by_cases h1 : s = ""
  · simp [h1]
  · rw [if_neg h1, if_neg h1]
    by_cases h2 : s.length > 140
    · simp [h2]
    · rw [if_neg h2, if_neg h2]
      by_cases h3 : d.length > 1000
      · simp [jsLengthGT, h3]
      · have hdec : decide (d.length > 1000) = false := by simp [h3]
        simp only [jsLengthGT, hdec, jsTrimVal, if_neg h3]
        rfl

/-- add_task on a title that is not a string throws the title validation
error. -/
theorem add_task_eval_notstr (env : Env) (signer : String) (title descv aj : JSValue)
    (st : Store) (ht : ∀ s, title ≠ .str s) :
    add_task env signer ⟨title, descv, aj⟩ st
      = (.err (.validationError "title is required"), st) := by
  unfold add_task
  cases title
  · exact absurd rfl (ht _)
  all_goals rfl

/-- The updated record a successful complete_task persists. -/
def completeOkTask (env : Env) (signer : String) (task : Task) : Task :=
  { task with
    status := "completed"
    updated_at := env.now
    completed_by := some signer }

/-- The updated record a successful cancel_task persists. -/
def cancelOkTask (env : Env) (signer : String) (task : Task) : Task :=
  { task with
    status := "cancelled"
    updated_at := env.now
    cancelled_by := some signer }

/-- complete_task either throws with the store untouched, or succeeds on an
open task whose creator or assignee signed, writing the record back and
moving the id between the open and completed index sets. -/
theorem complete_task_cases (env : Env) (signer id : String) (st : Store) :
    (∃ e, complete_task env signer id st = (.err e, st)) ∨
    (∃ task, st.getTask id = some task ∧ task.status = "open" ∧
      (task.creator = signer ∨ task.assignee = .str signer) ∧
      complete_task env signer id st =
        (.ok (completeOkTask env signer task),
          ((st.set ("task:" ++ id) (completeOkTask env signer task)).srem
            "tasks:open" id).sadd "tasks:completed" id)) := by
  unfold complete_task
  split
  · exact Or.inl ⟨_, rfl⟩
  split
  · exact Or.inl ⟨_, rfl⟩
  rename_i task hg
  split
  · exact Or.inl ⟨_, rfl⟩
  rename_i h1
  split
  · exact Or.inl ⟨_, rfl⟩
  rename_i h2
  have hauth : task.creator = signer ∨ task.assignee = .str signer := by
    have hb : (task.creator == signer || task.assignee == .str signer) = true := by
      by_contra hX
      have hX2 : (task.creator == signer || task.assignee == JSValue.str signer) = false :=
        Bool.eq_false_iff.mpr hX
      exact h2 (by rw [hX2]; rfl)
    rcases Bool.or_eq_true_iff.mp hb with hb | hb
    · exact Or.inl (by simpa using hb)
    · exact Or.inr (by simpa using hb)
  exact Or.inr ⟨task, hg, not_not.mp h1, hauth, rfl⟩

/-- cancel_task either throws with the store untouched, or succeeds on an
open task when the signer is the creator or an admin, writing the record
back and moving the id between the open and cancelled index sets. -/
theorem cancel_task_cases (env : Env) (signer id : String) (st : Store) :
    (∃ e, cancel_task env signer id st = (.err e, st)) ∨
    (∃ task, st.getTask id = some task ∧ task.status = "open" ∧
      (task.creator = signer ∨ env.isAdmin signer = true) ∧
      cancel_task env signer id st =
        (.ok (cancelOkTask env signer task),
          ((st.set ("task:" ++ id) (cancelOkTask env signer task)).srem
            "tasks:open" id).sadd "tasks:cancelled" id)) := by
  unfold cancel_task
  split
  · exact Or.inl ⟨_, rfl⟩
  split
  · exact Or.inl ⟨_, rfl⟩
  rename_i task hg
  split
  · exact Or.inl ⟨_, rfl⟩
  rename_i h1
  split
  · exact Or.inl ⟨_, rfl⟩
  rename_i h2
  refine Or.inr ⟨task, hg, not_not.mp h1, ?_, rfl⟩
  by_cases hcr : task.creator = signer
  · exact Or.inl hcr
  · rcases Bool.eq_false_or_eq_true (env.isAdmin signer) with hb | hb
    · exact Or.inr hb
    · exact absurd ⟨hcr, hb⟩ h2

/-! ### The index-consistency invariant -/

/-- The global store invariant every transaction maintains: the four index
sets hold no duplicates, every indexed id was allocated from the counter,
tasks:all holds exactly the ids with a stored record, each status set holds
exactly the ids whose record carries that status, and every stored status
is one of the three legal ones. -/
structure Inv (st : Store) : Prop where
  nodup_all : (st.smembers "tasks:all").Nodup
  nodup_open : (st.smembers "tasks:open").Nodup
  nodup_completed : (st.smembers "tasks:completed").Nodup
  nodup_cancelled : (st.smembers "tasks:cancelled").Nodup
  bound : ∀ id ∈ st.smembers "tasks:all",
    ∃ n, 0 < n ∧ n ≤ st.counters "task_seq" ∧ id = mkTaskId n
  all_iff : ∀ id, id ∈ st.smembers "tasks:all" ↔ (st.getTask id).isSome = true
  open_iff : ∀ id, id ∈ st.smembers "tasks:open" ↔
    ∃ t, st.getTask id = some t ∧ t.status = "open"
  completed_iff : ∀ id, id ∈ st.smembers "tasks:completed" ↔
    ∃ t, st.getTask id = some t ∧ t.status = "completed"
  cancelled_iff : ∀ id, id ∈ st.smembers "tasks:cancelled" ↔
    ∃ t, st.getTask id = some t ∧ t.status = "cancelled"
  status_valid : ∀ id t, st.getTask id = some t →
    t.status = "open" ∨ t.status = "completed" ∨ t.status = "cancelled"

theorem inv_empty : Inv Store.empty := by
  constructor <;> simp [Store.empty, Store.smembers, Store.getTask, Store.get]

/-! ### Components of the store after a successful add_task -/

theorem addOkBase_smembers_all (env : Env) (signer title desc : String)
    (a : JSValue) (st : Store) :
    (addOkBase env signer title desc a st).smembers "tasks:all"
      = if mkTaskId (st.counters "task_seq" + 1) ∈ st.smembers "tasks:all"
        then st.smembers "tasks:all"
        else st.smembers "tasks:all" ++ [mkTaskId (st.counters "task_seq" + 1)] := by
  unfold addOkBase
  rw [smembers_sadd_ne _ _ _ _ (by decide : ("tasks:all" : String) ≠ "tasks:open"),
    smembers_sadd_self, smembers_set, smembers_increment]

theorem addOkBase_smembers_open (env : Env) (signer title desc : String)
    (a : JSValue) (st : Store) :
    (addOkBase env signer title desc a st).smembers "tasks:open"
      = if mkTaskId (st.counters "task_seq" + 1) ∈ st.smembers "tasks:open"
        then st.smembers "tasks:open"
        else st.smembers "tasks:open" ++ [mkTaskId (st.counters "task_seq" + 1)] := by
  unfold addOkBase
  rw [smembers_sadd_self, smembers_sadd_ne _ _ _ _
    (by decide : ("tasks:open" : String) ≠ "tasks:all"), smembers_set, smembers_increment]

theorem addOkBase_smembers_other (env : Env) (signer title desc : String)
    (a : JSValue) (st : Store) (k : String)
    (h2 : k ≠ "tasks:open") (h3 : k ≠ "tasks:all") :
    (addOkBase env signer title desc a st).smembers k = st.smembers k := by
  unfold addOkBase
  rw [smembers_sadd_ne _ _ _ _ h2, smembers_sadd_ne _ _ _ _ h3,
    smembers_set, smembers_increment]

theorem addOkBase_getTask (env : Env) (signer title desc : String)
    (a : JSValue) (st : Store) (j : String) :
    (addOkBase env signer title desc a st).getTask j
      = if j = mkTaskId (st.counters "task_seq" + 1)
        then some (addOkTask env signer title desc a st)
        else st.getTask j := by
  unfold addOkBase
  rw [getTask_sadd, getTask_sadd, getTask_set, getTask_increment]

theorem addOkBase_counters (env : Env) (signer title desc : String)
    (a : JSValue) (st : Store) (k : String) :
    (addOkBase env signer title desc a st).counters k
      = if k = "task_seq" then st.counters "task_seq" + 1 else st.counters k := by
  unfold addOkBase
  rw [counters_sadd, counters_sadd, counters_set, counters_increment]

theorem addOkStore_smembers_all (env : Env) (signer title desc : String)
    (a : JSValue) (st : Store) :
    (addOkStore env signer title desc a st).smembers "tasks:all"
      = (addOkBase env signer title desc a st).smembers "tasks:all" := by
  unfold addOkStore
  split
  · rw [smembers_sadd_ne _ _ _ _ (Ne.symm (assigneeKey_ne_all _))]
  · rfl

theorem addOkStore_smembers_open (env : Env) (signer title desc : String)
    (a : JSValue) (st : Store) :
    (addOkStore env signer title desc a st).smembers "tasks:open"
      = (addOkBase env signer title desc a st).smembers "tasks:open" := by
  unfold addOkStore
  split
  · rw [smembers_sadd_ne _ _ _ _ (Ne.symm (assigneeKey_ne_open _))]
  · rfl

theorem addOkStore_smembers_completed (env : Env) (signer title desc : String)
    (a : JSValue) (st : Store) :
    (addOkStore env signer title desc a st).smembers "tasks:completed"
      = st.smembers "tasks:completed" := by
  unfold addOkStore
  split
  · rw [smembers_sadd_ne _ _ _ _ (Ne.symm (assigneeKey_ne_completed _))]
    exact addOkBase_smembers_other _ _ _ _ _ _ _ (by decide) (by decide)
  · exact addOkBase_smembers_other _ _ _ _ _ _ _ (by decide) (by decide)

theorem addOkStore_smembers_cancelled (env : Env) (signer title desc : String)
    (a : JSValue) (st : Store) :
    (addOkStore env signer title desc a st).smembers "tasks:cancelled"
      = st.smembers "tasks:cancelled" := by
  unfold addOkStore
  split
  · rw [smembers_sadd_ne _ _ _ _ (Ne.symm (assigneeKey_ne_cancelled _))]
    exact addOkBase_smembers_other _ _ _ _ _ _ _ (by decide) (by decide)
  · exact addOkBase_smembers_other _ _ _ _ _ _ _ (by decide) (by decide)

theorem addOkStore_getTask (env : Env) (signer title desc : String)
    (a : JSValue) (st : Store) (j : String) :
    (addOkStore env signer title desc a st).getTask j
      = if j = mkTaskId (st.counters "task_seq" + 1)
        then some (addOkTask env signer title desc a st)
        else st.getTask j := by
  unfold addOkStore
  split
  · rw [getTask_sadd, addOkBase_getTask]
  · rw [addOkBase_getTask]

theorem addOkStore_counters (env : Env) (signer title desc : String)
    (a : JSValue) (st : Store) (k : String) :
    (addOkStore env signer title desc a st).counters k
      = if k = "task_seq" then st.counters "task_seq" + 1 else st.counters k := by
  unfold addOkStore
  split
  · rw [counters_sadd, addOkBase_counters]
  · rw [addOkBase_counters]

theorem inv_addOkStore (env : Env) (signer title desc : String) (a : JSValue)
    (st : Store) (h : Inv st) : Inv (addOkStore env signer title desc a st) := by
  have hfresh_all : mkTaskId (st.counters "task_seq" + 1) ∉ st.smembers "tasks:all" := by
    intro hmem
    obtain ⟨n, hn0, hnle, hne⟩ := h.bound _ hmem
    have hinj := mkTaskId_injective hne
    omega
  have hfresh_open : mkTaskId (st.counters "task_seq" + 1) ∉ st.smembers "tasks:open" := by
    intro hmem
    obtain ⟨t, hg, _⟩ := (h.open_iff _).mp hmem
    exact hfresh_all ((h.all_iff _).mpr (by rw [hg]; rfl))
  have hfresh_completed :
      mkTaskId (st.counters "task_seq" + 1) ∉ st.smembers "tasks:completed" := by
    intro hmem
    obtain ⟨t, hg, _⟩ := (h.completed_iff _).mp hmem
    exact hfresh_all ((h.all_iff _).mpr (by rw [hg]; rfl))
  have hfresh_cancelled :
      mkTaskId (st.counters "task_seq" + 1) ∉ st.smembers "tasks:cancelled" := by
    intro hmem
    obtain ⟨t, hg, _⟩ := (h.cancelled_iff _).mp hmem
    exact hfresh_all ((h.all_iff _).mpr (by rw [hg]; rfl))
  have hall : (addOkStore env signer title desc a st).smembers "tasks:all"
      = st.smembers "tasks:all" ++ [mkTaskId (st.counters "task_seq" + 1)] := by
    rw [addOkStore_smembers_all, addOkBase_smembers_all, if_neg hfresh_all]
  have hopen : (addOkStore env signer title desc a st).smembers "tasks:open"
      = st.smembers "tasks:open" ++ [mkTaskId (st.counters "task_seq" + 1)] := by
    rw [addOkStore_smembers_open, addOkBase_smembers_open, if_neg hfresh_open]
  have hcomp := addOkStore_smembers_completed env signer title desc a st
  have hcanc := addOkStore_smembers_cancelled env signer title desc a st
  have hget := addOkStore_getTask env signer title desc a st
  have hcnt := addOkStore_counters env signer title desc a st
  constructor
  · rw [hall]
    exact ((List.perm_append_singleton _ _).nodup_iff).mpr
      (List.nodup_cons.mpr ⟨hfresh_all, h.nodup_all⟩)
  · rw [hopen]
    exact ((List.perm_append_singleton _ _).nodup_iff).mpr
      (List.nodup_cons.mpr ⟨hfresh_open, h.nodup_open⟩)
  · rw [hcomp]; exact h.nodup_completed
  · rw [hcanc]; exact h.nodup_cancelled
  · intro id hid
    rw [hall] at hid
    rw [hcnt "task_seq", if_pos rfl]
    rcases List.mem_append.mp hid with hid | hid
    · obtain ⟨n, hn0, hnle, hne⟩ := h.bound id hid
      exact ⟨n, hn0, by omega, hne⟩
    · exact ⟨st.counters "task_seq" + 1, by omega, le_refl _, by simpa using hid⟩
  · intro id
    rw [hall, hget id]
    by_cases hcase : id = mkTaskId (st.counters "task_seq" + 1)
    · subst hcase
      simp
    · rw [if_neg hcase]
      simp only [List.mem_append, List.mem_singleton, hcase, or_false]
      exact h.all_iff id
  · intro id
    rw [hopen, hget id]
    by_cases hcase : id = mkTaskId (st.counters "task_seq" + 1)
    · subst hcase
      simp [addOkTask]
    · rw [if_neg hcase]
      simp only [List.mem_append, List.mem_singleton, hcase, or_false]
      exact h.open_iff id
  · intro id
    rw [hcomp, hget id]
    by_cases hcase : id = mkTaskId (st.counters "task_seq" + 1)
    · subst hcase
      simp [addOkTask, hfresh_completed]
    · rw [if_neg hcase]
      exact h.completed_iff id
  · intro id
    rw [hcanc, hget id]
    by_cases hcase : id = mkTaskId (st.counters "task_seq" + 1)
    · subst hcase
      simp [addOkTask, hfresh_cancelled]
    · rw [if_neg hcase]
      exact h.cancelled_iff id
  · intro id t ht
    rw [hget id] at ht
    by_cases hcase : id = mkTaskId (st.counters "task_seq" + 1)
    · rw [if_pos hcase] at ht
      have : t = addOkTask env signer title desc a st := by
        injection ht with h2
        exact h2.symm
      subst this
      exact Or.inl rfl
    · rw [if_neg hcase] at ht
      exact h.status_valid id t ht

/-! ### Components of the store after a terminal transition -/

/-- The store chain a successful complete_task or cancel_task writes: put
the updated record back, remove the id from tasks:open, add it to the
terminal status set. -/
def transStore (st : Store) (id : String) (t2 : Task) (toKey : String) : Store :=
  ((st.set ("task:" ++ id) t2).srem "tasks:open" id).sadd toKey id

theorem transStore_smembers (st : Store) (id : String) (t2 : Task) (toKey k : String)
    (hk1 : k ≠ "tasks:open") (hk2 : k ≠ toKey) :
    (transStore st id t2 toKey).smembers k = st.smembers k := by
  unfold transStore
  rw [smembers_sadd_ne _ _ _ _ hk2, smembers_srem_ne _ _ _ _ hk1, smembers_set]

theorem transStore_smembers_open (st : Store) (id : String) (t2 : Task) (toKey : String)
    (h : ("tasks:open" : String) ≠ toKey) :
    (transStore st id t2 toKey).smembers "tasks:open"
      = (st.smembers "tasks:open").filter (fun x => decide (x ≠ id)) := by
  unfold transStore
  rw [smembers_sadd_ne _ _ _ _ h, smembers_srem_self, smembers_set]

theorem transStore_smembers_to (st : Store) (id : String) (t2 : Task) (toKey : String)
    (h : toKey ≠ "tasks:open") :
    (transStore st id t2 toKey).smembers toKey
      = if id ∈ st.smembers toKey then st.smembers toKey
        else st.smembers toKey ++ [id] := by
  unfold transStore
  rw [smembers_sadd_self, smembers_srem_ne _ _ _ _ h, smembers_set]

theorem transStore_getTask (st : Store) (id : String) (t2 : Task) (toKey j : String) :
    (transStore st id t2 toKey).getTask j = if j = id then some t2 else st.getTask j := by
  unfold transStore
  rw [getTask_sadd, getTask_srem, getTask_set]

theorem transStore_counters (st : Store) (id : String) (t2 : Task) (toKey : String) :
    (transStore st id t2 toKey).counters = st.counters := by
  unfold transStore
  rw [counters_sadd, counters_srem, counters_set]

theorem inv_completeOk (env : Env) (signer id : String) (st : Store) (task : Task)
    (h : Inv st) (hg : st.getTask id = some task) (hopen : task.status = "open") :
    Inv (transStore st id (completeOkTask env signer task) "tasks:completed") := by
  have hid_all : id ∈ st.smembers "tasks:all" := (h.all_iff id).mpr (by rw [hg]; rfl)
  have hid_ncomp : id ∉ st.smembers "tasks:completed" := by
    intro hm
    obtain ⟨t, hg2, hs⟩ := (h.completed_iff id).mp hm
    rw [hg] at hg2
    injection hg2 with he
    rw [← he, hopen] at hs
    exact absurd hs (by decide)
  have hall := transStore_smembers st id (completeOkTask env signer task)
    "tasks:completed" "tasks:all" (by decide) (by decide)
  have hopen2 := transStore_smembers_open st id (completeOkTask env signer task)
    "tasks:completed" (by decide)
  have hcomp := transStore_smembers_to st id (completeOkTask env signer task)
    "tasks:completed" (by decide)
  have hcanc := transStore_smembers st id (completeOkTask env signer task)
    "tasks:completed" "tasks:cancelled" (by decide) (by decide)
  have hget := transStore_getTask st id (completeOkTask env signer task) "tasks:completed"
  have hcnt := transStore_counters st id (completeOkTask env signer task) "tasks:completed"
  constructor
  · rw [hall]; exact h.nodup_all
  · rw [hopen2]; exact h.nodup_open.filter _
  · rw [hcomp, if_neg hid_ncomp]
    exact ((List.perm_append_singleton _ _).nodup_iff).mpr
      (List.nodup_cons.mpr ⟨hid_ncomp, h.nodup_completed⟩)
  · rw [hcanc]; exact h.nodup_cancelled
  · intro i hi
    rw [hall] at hi
    rw [hcnt]
    exact h.bound i hi
  · intro i
    rw [hall, hget i]
    by_cases hcase : i = id
    · subst hcase
      simp [hid_all]
    · rw [if_neg hcase]
      exact h.all_iff i
  · intro i
    rw [hopen2, hget i]
    by_cases hcase : i = id
    · subst hcase
      simp [completeOkTask, List.mem_filter]
    · rw [if_neg hcase, List.mem_filter]
      simp only [hcase, decide_not, ne_eq, decide_eq_true_eq, not_false_iff, and_true]
      exact h.open_iff i
  · intro i
    rw [hcomp, if_neg hid_ncomp, hget i]
    by_cases hcase : i = id
    · subst hcase
      simp [completeOkTask]
    · rw [if_neg hcase]
      simp only [List.mem_append, List.mem_singleton, hcase, or_false]
      exact h.completed_iff i
  · intro i
    rw [hcanc, hget i]
    by_cases hcase : i = id
    · subst hcase
      rw [if_pos rfl]
      constructor
      · intro hm
        obtain ⟨t, hg2, hs⟩ := (h.cancelled_iff _).mp hm
        rw [hg] at hg2
        injection hg2 with he
        rw [← he, hopen] at hs
        exact absurd hs (by decide)
      · rintro ⟨t, ht, hs⟩
        injection ht with he
        rw [← he] at hs
        exact absurd hs (by simp [completeOkTask])
    · rw [if_neg hcase]
      exact h.cancelled_iff i
  · intro i t ht
    rw [hget i] at ht
    by_cases hcase : i = id
    · rw [if_pos hcase] at ht
      injection ht with he
      rw [← he]
      exact Or.inr (Or.inl rfl)
    · rw [if_neg hcase] at ht
      exact h.status_valid i t ht

theorem inv_cancelOk (env : Env) (signer id : String) (st : Store) (task : Task)
    (h : Inv st) (hg : st.getTask id = some task) (hopen : task.status = "open") :
    Inv (transStore st id (cancelOkTask env signer task) "tasks:cancelled") := by
  have hid_all : id ∈ st.smembers "tasks:all" := (h.all_iff id).mpr (by rw [hg]; rfl)
  have hid_ncanc : id ∉ st.smembers "tasks:cancelled" := by
    intro hm
    obtain ⟨t, hg2, hs⟩ := (h.cancelled_iff id).mp hm
    rw [hg] at hg2
    injection hg2 with he
    rw [← he, hopen] at hs
    exact absurd hs (by decide)
  have hall := transStore_smembers st id (cancelOkTask env signer task)
    "tasks:cancelled" "tasks:all" (by decide) (by decide)
  have hopen2 := transStore_smembers_open st id (cancelOkTask env signer task)
    "tasks:cancelled" (by decide)
  have hcanc := transStore_smembers_to st id (cancelOkTask env signer task)
    "tasks:cancelled" (by decide)
  have hcomp := transStore_smembers st id (cancelOkTask env signer task)
    "tasks:cancelled" "tasks:completed" (by decide) (by decide)
  have hget := transStore_getTask st id (cancelOkTask env signer task) "tasks:cancelled"
  have hcnt := transStore_counters st id (cancelOkTask env signer task) "tasks:cancelled"
  constructor
  · rw [hall]; exact h.nodup_all
  · rw [hopen2]; exact h.nodup_open.filter _
  · rw [hcomp]; exact h.nodup_completed
  · rw [hcanc, if_neg hid_ncanc]
    exact ((List.perm_append_singleton _ _).nodup_iff).mpr
      (List.nodup_cons.mpr ⟨hid_ncanc, h.nodup_cancelled⟩)
  · intro i hi
    rw [hall] at hi
    rw [hcnt]
    exact h.bound i hi
  · intro i
    rw [hall, hget i]
    by_cases hcase : i = id
    · subst hcase
      simp [hid_all]
    · rw [if_neg hcase]
      exact h.all_iff i
  · intro i
    rw [hopen2, hget i]
    by_cases hcase : i = id
    · subst hcase
      simp [cancelOkTask, List.mem_filter]
    · rw [if_neg hcase, List.mem_filter]
      simp only [hcase, decide_not, ne_eq, decide_eq_true_eq, not_false_iff, and_true]
      exact h.open_iff i
  · intro i
    rw [hcomp, hget i]
    by_cases hcase : i = id
    · subst hcase
      rw [if_pos rfl]
      constructor
      · intro hm
        obtain ⟨t, hg2, hs⟩ := (h.completed_iff _).mp hm
        rw [hg] at hg2
        injection hg2 with he
        rw [← he, hopen] at hs
        exact absurd hs (by decide)
      · rintro ⟨t, ht, hs⟩
        injection ht with he
        rw [← he] at hs
        exact absurd hs (by simp [cancelOkTask])
    · rw [if_neg hcase]
      exact h.completed_iff i
  · intro i
    rw [hcanc, if_neg hid_ncanc, hget i]
    by_cases hcase : i = id
    · subst hcase
      simp [cancelOkTask]
    · rw [if_neg hcase]
      simp only [List.mem_append, List.mem_singleton, hcase, or_false]
      exact h.cancelled_iff i
  · intro i t ht
    rw [hget i] at ht
    by_cases hcase : i = id
    · rw [if_pos hcase] at ht
      injection ht with he
      rw [← he]
      exact Or.inr (Or.inr rfl)
    · rw [if_neg hcase] at ht
      exact h.status_valid i t ht

/-! ### Runs of operations -/

theorem runOp_add (isAdmin : String → Bool) (now : Nat) (signer title desc : String)
    (aj : Option String) (st : Store) :
    runOp isAdmin now (.add signer title desc aj) st
      = add_task ⟨now, isAdmin⟩ signer ⟨.str title, .str desc, assigneeVal aj⟩ st := by
  cases aj <;> rfl

/-- A replicated add_task either throws leaving the store untouched, or
returns the freshly built task and the indexed store. -/
theorem runOp_add_split (isAdmin : String → Bool) (now : Nat)
    (signer title desc : String) (aj : Option String) (st : Store) :
    (∃ e, runOp isAdmin now (.add signer title desc aj) st = (.err e, st)) ∨
    runOp isAdmin now (.add signer title desc aj) st
      = (.ok (addOkTask ⟨now, isAdmin⟩ signer title desc (assigneeVal aj) st),
         addOkStore ⟨now, isAdmin⟩ signer title desc (assigneeVal aj) st) := by
  have hja : jsDefault (assigneeVal aj) .nullv = assigneeVal aj := by
    cases aj <;> rfl
  rw [runOp_add, add_task_eval_str _ _ _ (.str desc) _ desc _ rfl, hja]
  split
  · exact Or.inl ⟨_, rfl⟩
  split
  · exact Or.inl ⟨_, rfl⟩
  split
  · exact Or.inl ⟨_, rfl⟩
  exact Or.inr rfl

theorem runOp_complete_counters (isAdmin : String → Bool) (now : Nat)
    (signer id : String) (st : Store) :
    ((runOp isAdmin now (.complete signer id) st).2).counters = st.counters := by
  rcases complete_task_cases ⟨now, isAdmin⟩ signer id st with ⟨e, heq⟩ |
    ⟨task, _, _, _, heq⟩ <;>
    show ((complete_task ⟨now, isAdmin⟩ signer id st).2).counters = st.counters <;>
    rw [heq]
  exact transStore_counters _ _ _ _

theorem runOp_cancel_counters (isAdmin : String → Bool) (now : Nat)
    (signer id : String) (st : Store) :
    ((runOp isAdmin now (.cancel signer id) st).2).counters = st.counters := by
  rcases cancel_task_cases ⟨now, isAdmin⟩ signer id st with ⟨e, heq⟩ |
    ⟨task, _, _, _, heq⟩ <;>
    show ((cancel_task ⟨now, isAdmin⟩ signer id st).2).counters = st.counters <;>
    rw [heq]
  exact transStore_counters _ _ _ _

/-- Every transaction preserves the index-consistency invariant. -/
theorem inv_runOp (isAdmin : String → Bool) (now : Nat) (op : Op) (st : Store)
    (h : Inv st) : Inv (runOp isAdmin now op st).2 := by
  cases op with
  | add signer title desc aj =>
    rcases runOp_add_split isAdmin now signer title desc aj st with ⟨e, heq⟩ | heq <;>
      rw [heq]
    · exact h
    · exact inv_addOkStore _ _ _ _ _ _ h
  | complete signer id =>
    rcases complete_task_cases ⟨now, isAdmin⟩ signer id st with ⟨e, heq⟩ |
      ⟨task, hg, hopen, _, heq⟩ <;>
      show Inv ((complete_task ⟨now, isAdmin⟩ signer id st).2) <;> rw [heq]
    · exact h
    · exact inv_completeOk _ _ _ _ _ h hg hopen
  | cancel signer id =>
    rcases cancel_task_cases ⟨now, isAdmin⟩ signer id st with ⟨e, heq⟩ |
      ⟨task, hg, hopen, _, heq⟩ <;>
      show Inv ((cancel_task ⟨now, isAdmin⟩ signer id st).2) <;> rw [heq]
    · exact h
    · exact inv_cancelOk _ _ _ _ _ h hg hopen

/-- The invariant holds in every state reachable from a store satisfying
it, in particular from the empty store. -/
theorem inv_applyOps (isAdmin : String → Bool) (ops : List Op) (clock : List Nat)
    (st : Store) (h : Inv st) : Inv (applyOps isAdmin ops clock st) := by
  induction ops generalizing clock st with
  | nil => exact h
  | cons op ops ih => exact ih clock.tail _ (inv_runOp isAdmin (clock.headD 0) op st h)

/-- The created-id trace of a run is the counter values the run allocates,
in order, rendered as task ids; the counter advances by exactly the number
of successful add_task operations. -/
theorem createdIds_spec (isAdmin : String → Bool) :
    ∀ (ops : List Op) (clock : List Nat) (st : Store),
      ∃ k, createdIds isAdmin ops clock st
          = (List.range' (st.counters "task_seq" + 1) k).map mkTaskId ∧
        (applyOps isAdmin ops clock st).counters "task_seq"
          = st.counters "task_seq" + k := by
  intro ops
  induction ops with
  | nil => intro clock st; exact ⟨0, rfl, rfl⟩
  | cons op ops ih =>
    intro clock st
    simp only [createdIds, applyOps]
    cases op with
    | add signer title desc aj =>
      rcases runOp_add_split isAdmin (clock.headD 0) signer title desc aj st with
        ⟨e, heq⟩ | heq <;> rw [heq] <;> simp only [createdOf]
      · obtain ⟨k, hc, hk⟩ := ih clock.tail st
        exact ⟨k, by simpa using hc, hk⟩
      · obtain ⟨k, hc, hk⟩ := ih clock.tail
          (addOkStore ⟨clock.headD 0, isAdmin⟩ signer title desc (assigneeVal aj) st)
        rw [addOkStore_counters, if_pos rfl] at hc hk
        refine ⟨k + 1, ?_, by omega⟩
        rw [hc]
        rfl
    | complete signer id =>
      obtain ⟨k, hc, hk⟩ := ih clock.tail ((runOp isAdmin (clock.headD 0)
        (.complete signer id) st).2)
      rw [runOp_complete_counters] at hc hk
      exact ⟨k, by simpa using hc, hk⟩
    | cancel signer id =>
      obtain ⟨k, hc, hk⟩ := ih clock.tail ((runOp isAdmin (clock.headD 0)
        (.cancel signer id) st).2)
      rw [runOp_cancel_counters] at hc hk
      exact ⟨k, by simpa using hc, hk⟩

/-- Under the invariant, the status sets partition tasks:all, so the four
cardinalities satisfy the accounting equation. -/
theorem inv_count (st : Store) (h : Inv st) :
    (st.smembers "tasks:all").length
      = (st.smembers "tasks:open").length + (st.smembers "tasks:completed").length
        + (st.smembers "tasks:cancelled").length := by
  classical
  have hunion : (st.smembers "tasks:all").toFinset
      = ((st.smembers "tasks:open").toFinset ∪ (st.smembers "tasks:completed").toFinset)
        ∪ (st.smembers "tasks:cancelled").toFinset := by
    ext id
    simp only [List.mem_toFinset, Finset.mem_union]
    constructor
    · intro hm
      obtain ⟨t, ht⟩ := Option.isSome_iff_exists.mp ((h.all_iff id).mp hm)
      rcases h.status_valid id t ht with h1 | h1 | h1
      · exact Or.inl (Or.inl ((h.open_iff id).mpr ⟨t, ht, h1⟩))
      · exact Or.inl (Or.inr ((h.completed_iff id).mpr ⟨t, ht, h1⟩))
      · exact Or.inr ((h.cancelled_iff id).mpr ⟨t, ht, h1⟩)
    · intro hm
      rcases hm with (hm | hm) | hm
      · obtain ⟨t, ht, _⟩ := (h.open_iff id).mp hm
        exact (h.all_iff id).mpr (by rw [ht]; rfl)
      · obtain ⟨t, ht, _⟩ := (h.completed_iff id).mp hm
        exact (h.all_iff id).mpr (by rw [ht]; rfl)
      · obtain ⟨t, ht, _⟩ := (h.cancelled_iff id).mp hm
        exact (h.all_iff id).mpr (by rw [ht]; rfl)
  have hdisjOC : Disjoint (st.smembers "tasks:open").toFinset
      (st.smembers "tasks:completed").toFinset := by
    rw [Finset.disjoint_left]
    intro id h1 h2
    rw [List.mem_toFinset] at h1 h2
    obtain ⟨t, ht, hs1⟩ := (h.open_iff id).mp h1
    obtain ⟨t2, ht2, hs2⟩ := (h.completed_iff id).mp h2
    rw [ht] at ht2
    injection ht2 with he
    rw [← he, hs1] at hs2
    exact absurd hs2 (by decide)
  have hdisjX : Disjoint
      ((st.smembers "tasks:open").toFinset ∪ (st.smembers "tasks:completed").toFinset)
      (st.smembers "tasks:cancelled").toFinset := by
    rw [Finset.disjoint_left]
    intro id h1 h2
    rw [Finset.mem_union] at h1
    rw [List.mem_toFinset] at h2
    obtain ⟨t2, ht2, hs2⟩ := (h.cancelled_iff id).mp h2
    rcases h1 with h1 | h1 <;> rw [List.mem_toFinset] at h1
    · obtain ⟨t, ht, hs1⟩ := (h.open_iff id).mp h1
      rw [ht] at ht2
      injection ht2 with he
      rw [← he, hs1] at hs2
      exact absurd hs2 (by decide)
    · obtain ⟨t, ht, hs1⟩ := (h.completed_iff id).mp h1
      rw [ht] at ht2
      injection ht2 with he
      rw [← he, hs1] at hs2
      exact absurd hs2 (by decide)
  calc (st.smembers "tasks:all").length
      = (st.smembers "tasks:all").toFinset.card :=
        (List.toFinset_card_of_nodup h.nodup_all).symm
    _ = (((st.smembers "tasks:open").toFinset ∪ (st.smembers "tasks:completed").toFinset)
        ∪ (st.smembers "tasks:cancelled").toFinset).card := by rw [hunion]
    _ = ((st.smembers "tasks:open").toFinset ∪ (st.smembers "tasks:completed").toFinset).card
        + (st.smembers "tasks:cancelled").toFinset.card :=
        Finset.card_union_of_disjoint hdisjX
    _ = (st.smembers "tasks:open").toFinset.card
        + (st.smembers "tasks:completed").toFinset.card
        + (st.smembers "tasks:cancelled").toFinset.card := by
        rw [Finset.card_union_of_disjoint hdisjOC]
    _ = _ := by
        rw [List.toFinset_card_of_nodup h.nodup_open,
          List.toFinset_card_of_nodup h.nodup_completed,
          List.toFinset_card_of_nodup h.nodup_cancelled]

/-! ### Errors never touch the store -/

theorem add_task_err_snd (env : Env) (signer : String) (p : AddParams) (st : Store)
    (e : ContractError) (h : (add_task env signer p st).1 = .err e) :
    (add_task env signer p st).2 = st := by
  unfold add_task at h ⊢
  revert h
  repeat' split
  all_goals intro h
  all_goals first
    | rfl
    | exact absurd h (by simp [jsLengthGT, jsTrimVal])

theorem complete_task_err_snd (env : Env) (signer id : String) (st : Store)
    (e : ContractError) (h : (complete_task env signer id st).1 = .err e) :
    (complete_task env signer id st).2 = st := by
  rcases complete_task_cases env signer id st with ⟨e2, heq⟩ | ⟨task, _, _, _, heq⟩
  · rw [heq]
  · rw [heq] at h
    exact absurd h (by simp)

theorem cancel_task_err_snd (env : Env) (signer id : String) (st : Store)
    (e : ContractError) (h : (cancel_task env signer id st).1 = .err e) :
    (cancel_task env signer id st).2 = st := by
  rcases cancel_task_cases env signer id st with ⟨e2, heq⟩ | ⟨task, _, _, _, heq⟩
  · rw [heq]
  · rw [heq] at h
    exact absurd h (by simp)

/-- Any id a six-digit counter value produces is task_ plus exactly six
digits. -/
theorem mkTaskId_length {n : Nat} (h : n < 1000000) : (mkTaskId n).length = 11 := by
  have hl : (Nat.repr n).length ≤ 6 := by
    refine Nat.repr_length n 6 (by omega) ?_
    have hp : (10 : Nat) ^ 6 = 1000000 := by norm_num
    omega
  have h5 : ("task_" : String).length = 5 := rfl
  have hdata : (Nat.repr n).data.length = (Nat.repr n).length := rfl
  unfold mkTaskId padStart6
  rw [String.length_append]
  show ("task_" : String).length
    + (List.replicate (6 - (Nat.repr n).length) '0' ++ (Nat.repr n).data).length = 11
  rw [List.length_append, List.length_replicate, h5, hdata]
  omega

/-! ### Evaluation lemmas for the terminal transitions -/

theorem complete_task_eval_none (env : Env) (signer id : String) (st : Store)
    (hid : id ≠ "") (hg : st.getTask id = none) :
    complete_task env signer id st
      = (.err (.notFoundError ("Task " ++ id ++ " not found")), st) := by
  have hg2 : st.get ("task:" ++ id) = none := hg
  unfold complete_task
  rw [if_neg hid]
  split
  · rfl
  · rename_i t2 heq
    exact Option.noConfusion (hg2.symm.trans heq)

theorem complete_task_eval (env : Env) (signer id : String) (st : Store) (t : Task)
    (hid : id ≠ "") (hg : st.getTask id = some t) :
    complete_task env signer id st =
      if t.status ≠ "open" then
        (.err (.invalidStateError
          ("Task " ++ id ++ " is not open (status: " ++ t.status ++ ")")), st)
      else if !(t.creator == signer || t.assignee == .str signer) then
        (.err (.authorizationError
          "Only the creator or assignee may complete this task"), st)
      else (.ok (completeOkTask env signer t),
            transStore st id (completeOkTask env signer t) "tasks:completed") := by
  have hg2 : st.get ("task:" ++ id) = some t := hg
  unfold complete_task
  rw [if_neg hid]
  split
  · rename_i heq
    exact Option.noConfusion (hg2.symm.trans heq)
  · rename_i t2 heq
    have ht2 : t2 = t := by
      have h3 := hg2.symm.trans heq
      injection h3 with h4
      exact h4.symm
    subst ht2
    rfl

theorem cancel_task_eval_none (env : Env) (signer id : String) (st : Store)
    (hid : id ≠ "") (hg : st.getTask id = none) :
    cancel_task env signer id st
      = (.err (.notFoundError ("Task " ++ id ++ " not found")), st) := by
  have hg2 : st.get ("task:" ++ id) = none := hg
  unfold cancel_task
  rw [if_neg hid]
  split
  · rfl
  · rename_i t2 heq
    exact Option.noConfusion (hg2.symm.trans heq)

theorem cancel_task_eval (env : Env) (signer id : String) (st : Store) (t : Task)
    (hid : id ≠ "") (hg : st.getTask id = some t) :
    cancel_task env signer id st =
      if t.status ≠ "open" then
        (.err (.invalidStateError ("Task " ++ id ++ " is not open")), st)
      else if t.creator ≠ signer ∧ env.isAdmin signer = false then
        (.err (.authorizationError
          "Only the creator or an admin may cancel this task"), st)
      else (.ok (cancelOkTask env signer t),
            transStore st id (cancelOkTask env signer t) "tasks:cancelled") := by
  have hg2 : st.get ("task:" ++ id) = some t := hg
  unfold cancel_task
  rw [if_neg hid]
  split
  · rename_i heq
    exact Option.noConfusion (hg2.symm.trans heq)
  · rename_i t2 heq
    have ht2 : t2 = t := by
      have h3 := hg2.symm.trans heq
      injection h3 with h4
      exact h4.symm
    subst ht2
    rfl

/-! ### Concrete fixtures used by witnesses -/

/-- A concrete environment: clock at 0, nobody is an admin. -/
def env0 : Env := ⟨0, fun _ => false⟩

/-- A concrete environment in which exactly dana is an admin. -/
def envD : Env := ⟨0, fun s => s == "dana"⟩

/-- A store holding one open task created by alice and assigned to bob,
applied under an admin membership containing exactly dana. -/
def demoStore : Store :=
  applyOps (fun s => s == "dana")
    [.add "alice" "Fix parser" "" (some "bob")] [10] Store.empty

/-- The task record demoStore holds at task:task_000001. -/
def demoTask : Task :=
  ⟨"task_000001", "Fix parser", "", .str "bob", "alice", "open", 10, 10, none, none⟩

/-- A 141-character title whose trimmed form has 140 characters. -/
def title141 : String := ⟨List.replicate 140 'a' ++ [' ']⟩

/-! ### The claims -/

/-- C1: the spec claims apply is deterministic — the same ordered operation
sequence from the same initial store yields bit-identical stores, including
created_at and updated_at.  The code reads Date.now() inside the handlers,
so two applications of the very same operation sequence at different
wall-clock instants store different created_at values: the claim fails on
the code even though the code's own documentation promises deterministic
execution and automatic convergence.  This theorem evaluates the two runs
at the failing input. -/
theorem C1_wall_clock_divergence :
    ((applyOps (fun _ => false) [.add "alice" "Write spec" "" none] [1000]
        Store.empty).getTask "task_000001").map Task.created_at = some 1000 ∧
    ((applyOps (fun _ => false) [.add "alice" "Write spec" "" none] [2000]
        Store.empty).getTask "task_000001").map Task.created_at = some 2000 := by
  exact ⟨by decide, by decide⟩

/-- C2: in every state reachable from the empty store, a stored task id is
in tasks:all, its status is one of the three legal statuses, and it lies in
a status set exactly when its record carries that status — hence it lies in
exactly one of them; consequently the stats view returns
total = open + completed + cancelled. -/
theorem C2_index_consistency_and_stats (isAdmin : String → Bool) (ops : List Op)
    (clock : List Nat) (S : Store)
    (hS : S = applyOps isAdmin ops clock Store.empty) :
    (∀ id t, S.getTask id = some t →
      id ∈ S.smembers "tasks:all" ∧
      (t.status = "open" ∨ t.status = "completed" ∨ t.status = "cancelled") ∧
      (id ∈ S.smembers "tasks:open" ↔ t.status = "open") ∧
      (id ∈ S.smembers "tasks:completed" ↔ t.status = "completed") ∧
      (id ∈ S.smembers "tasks:cancelled" ↔ t.status = "cancelled")) ∧
    (stats S).total = (stats S).«open» + (stats S).completed + (stats S).cancelled := by
  subst hS
  have h := inv_applyOps isAdmin ops clock Store.empty inv_empty
  constructor
  · intro id t ht
    refine ⟨(h.all_iff id).mpr (by rw [ht]; rfl), h.status_valid id t ht, ?_, ?_, ?_⟩
    · rw [h.open_iff id]
      constructor
      · rintro ⟨t2, ht2, hs⟩
        rw [ht] at ht2
        injection ht2 with he
        rw [he]
        exact hs
      · intro hs
        exact ⟨t, ht, hs⟩
    · rw [h.completed_iff id]
      constructor
      · rintro ⟨t2, ht2, hs⟩
        rw [ht] at ht2
        injection ht2 with he
        rw [he]
        exact hs
      · intro hs
        exact ⟨t, ht, hs⟩
    · rw [h.cancelled_iff id]
      constructor
      · rintro ⟨t2, ht2, hs⟩
        rw [ht] at ht2
        injection ht2 with he
        rw [he]
        exact hs
      · intro hs
        exact ⟨t, ht, hs⟩
  · exact inv_count _ h

/-- Witness for C2 at a concrete one-operation run. -/
theorem C2_witness :
    "task_000001" ∈ (applyOps (fun _ => false) [.add "alice" "A" "" none] [10]
      Store.empty).smembers "tasks:all" ∧
    ("task_000001" ∈ (applyOps (fun _ => false) [.add "alice" "A" "" none] [10]
      Store.empty).smembers "tasks:open" ↔
      Task.status ⟨"task_000001", "A", "", .nullv, "alice", "open", 10, 10, none, none⟩
        = "open") ∧
    (stats (applyOps (fun _ => false) [.add "alice" "A" "" none] [10]
      Store.empty)).total
      = (stats (applyOps (fun _ => false) [.add "alice" "A" "" none] [10]
          Store.empty)).«open»
        + (stats (applyOps (fun _ => false) [.add "alice" "A" "" none] [10]
            Store.empty)).completed
        + (stats (applyOps (fun _ => false) [.add "alice" "A" "" none] [10]
            Store.empty)).cancelled := by
  obtain ⟨hper, hstats⟩ := C2_index_consistency_and_stats (fun _ => false)
    [.add "alice" "A" "" none] [10] _ rfl
  have hx := hper "task_000001"
    ⟨"task_000001", "A", "", .nullv, "alice", "open", 10, 10, none, none⟩ (by decide)
  exact ⟨hx.1, hx.2.2.1, hstats⟩

/-- C3: complete_task checks its preconditions in order, each with its own
error: a missing task yields NotFoundError; an existing non-open task
yields InvalidStateError whose message contains the current status (so
reapplying an already-applied completion is rejected, not re-processed); an
open task whose signer is neither creator nor assignee yields
AuthorizationError — for every environment, so in particular for one whose
admin membership contains the signer (last conjunct): admins get no special
power here. -/
theorem C3_complete_task_precondition_order (env : Env) (signer id : String)
    (st : Store) (hid : id ≠ "") :
    (st.getTask id = none →
      (complete_task env signer id st).1
        = .err (.notFoundError ("Task " ++ id ++ " not found"))) ∧
    (∀ t, st.getTask id = some t → t.status ≠ "open" →
      (complete_task env signer id st).1
        = .err (.invalidStateError
          ("Task " ++ id ++ " is not open (status: " ++ t.status ++ ")")) ∧
      ∃ pre post, (complete_task env signer id st).1
        = .err (.invalidStateError (pre ++ t.status ++ post))) ∧
    (∀ t, st.getTask id = some t → t.status = "open" → t.creator ≠ signer →
      t.assignee ≠ .str signer →
      (complete_task env signer id st).1
        = .err (.authorizationError
          "Only the creator or assignee may complete this task")) ∧
    (∀ t, st.getTask id = some t → t.status = "open" → t.creator ≠ signer →
      t.assignee ≠ .str signer → env.isAdmin signer = true →
      (complete_task env signer id st).1
        = .err (.authorizationError
          "Only the creator or assignee may complete this task")) := by
  refine ⟨?_, ?_, ?_, ?_⟩
  · intro hn
    rw [complete_task_eval_none env signer id st hid hn]
  · intro t ht hstat
    rw [complete_task_eval env signer id st t hid ht, if_pos hstat]
    exact ⟨rfl, "Task " ++ id ++ " is not open (status: ", ")", rfl⟩
  · intro t ht hstat hcr has
    rw [complete_task_eval env signer id st t hid ht,
      if_neg (by simp [hstat]), if_pos (by simp [hcr, has])]
  · intro t ht hstat hcr has _
    rw [complete_task_eval env signer id st t hid ht,
      if_neg (by simp [hstat]), if_pos (by simp [hcr, has])]

/-- Witness for C3: a missing task fails NotFound on the empty store, and
the admin dana — neither creator nor assignee — fails AuthorizationError. -/
theorem C3_witness :
    (complete_task env0 "bob" "task_000042" Store.empty).1
      = .err (.notFoundError ("Task " ++ "task_000042" ++ " not found")) ∧
    (complete_task envD "dana" "task_000001" demoStore).1
      = .err (.authorizationError
        "Only the creator or assignee may complete this task") := by
  constructor
  · exact (C3_complete_task_precondition_order env0 "bob" "task_000042" Store.empty
      (by decide)).1 (by decide)
  · exact (C3_complete_task_precondition_order envD "dana" "task_000001" demoStore
      (by decide)).2.2.2 demoTask (by decide) (by decide) (by decide) (by decide)
      (by decide)

/-- C4: cancel_task on an existing open task succeeds exactly for the
creator or an admin: an assignee-only signer fails AuthorizationError,
while an admin succeeds even when not the creator; on success the record
becomes cancelled with cancelled_by the signer and the id moves from
tasks:open to tasks:cancelled. -/
theorem C4_cancel_task_auth (env : Env) (signer id : String) (st : Store) (t : Task)
    (hid : id ≠ "") (hg : st.getTask id = some t) (hopen : t.status = "open") :
    (signer ≠ t.creator → env.isAdmin signer = false →
      (cancel_task env signer id st).1
        = .err (.authorizationError
          "Only the creator or an admin may cancel this task")) ∧
    (t.assignee = .str signer → signer ≠ t.creator → env.isAdmin signer = false →
      (cancel_task env signer id st).1
        = .err (.authorizationError
          "Only the creator or an admin may cancel this task")) ∧
    ((t.creator = signer ∨ env.isAdmin signer = true) →
      ∃ t2 st2, cancel_task env signer id st = (.ok t2, st2) ∧
        t2.status = "cancelled" ∧ t2.cancelled_by = some signer ∧
        id ∉ st2.smembers "tasks:open" ∧ id ∈ st2.smembers "tasks:cancelled") := by
  have hev := cancel_task_eval env signer id st t hid hg
  refine ⟨?_, ?_, ?_⟩
  · intro hcr hadm
    rw [hev, if_neg (by simp [hopen]), if_pos ⟨Ne.symm hcr, hadm⟩]
  · intro _ hcr hadm
    rw [hev, if_neg (by simp [hopen]), if_pos ⟨Ne.symm hcr, hadm⟩]
  · intro hauth
    have hcond : ¬(t.creator ≠ signer ∧ env.isAdmin signer = false) := by
      intro hc
      rcases hauth with h1 | h1
      · exact hc.1 h1
      · rw [h1] at hc
        exact absurd hc.2 (by simp)
    rw [hev, if_neg (by simp [hopen]), if_neg hcond]
    refine ⟨_, _, rfl, rfl, rfl, ?_, ?_⟩
    · rw [transStore_smembers_open _ _ _ _ (by decide)]
      simp [List.mem_filter]
    · rw [transStore_smembers_to _ _ _ _ (by decide)]
      split
      · rename_i hmem
        exact hmem
      · exact List.mem_append.mpr (Or.inr (by simp))

/-- Witness for C4: bob, assignee but neither creator nor admin, fails;
dana, admin but not creator, succeeds and the id moves between the index
sets. -/
theorem C4_witness :
    (cancel_task envD "bob" "task_000001" demoStore).1
      = .err (.authorizationError
        "Only the creator or an admin may cancel this task") ∧
    (cancel_task envD "dana" "task_000001" demoStore).1
      = .ok ⟨"task_000001", "Fix parser", "", .str "bob", "alice", "cancelled", 10, 0,
          none, some "dana"⟩ ∧
    (((cancel_task envD "dana" "task_000001" demoStore).2).smembers
        "tasks:open").contains "task_000001" = false ∧
    (((cancel_task envD "dana" "task_000001" demoStore).2).smembers
        "tasks:cancelled").contains "task_000001" = true := by
  refine ⟨?_, by decide, by decide, by decide⟩
  exact (C4_cancel_task_auth envD "bob" "task_000001" demoStore demoTask (by decide)
    (by decide) (by decide)).2.1 (by decide) (by decide) (by decide)

section

set_option maxRecDepth 10000

/-- C5: over the parameter space the program itself submits (desc absent or
a string), add_task fails with ValidationError exactly when the title is
missing, not a string or empty, or the title has more than 140 characters,
or the desc has more than 1000 characters; otherwise it succeeds, for any
signer.  In particular a 141-character title is rejected and an exactly
140-character title is accepted. -/
theorem C5_add_task_validation (env : Env) (signer : String) (st : Store)
    (title descv assignee : JSValue)
    (hdesc : descv = .undef ∨ ∃ d, descv = .str d) :
    ((∃ m, (add_task env signer ⟨title, descv, assignee⟩ st).1
        = .err (.validationError m)) ↔
      ((¬ ∃ s, title = .str s ∧ s ≠ "") ∨
       (∃ s, title = .str s ∧ 140 < s.length) ∨
       (∃ d, descv = .str d ∧ 1000 < d.length))) ∧
    (¬((¬ ∃ s, title = .str s ∧ s ≠ "") ∨
       (∃ s, title = .str s ∧ 140 < s.length) ∨
       (∃ d, descv = .str d ∧ 1000 < d.length)) →
      ∃ t st2, add_task env signer ⟨title, descv, assignee⟩ st = (.ok t, st2)) ∧
    ((add_task env signer ⟨.str (⟨List.replicate 141 'a'⟩ : String), .undef, .undef⟩
        st).1 = .err (.validationError "title exceeds 140 characters")) ∧
    (∃ t st2, add_task env signer
      ⟨.str (⟨List.replicate 140 'a'⟩ : String), .undef, .undef⟩ st = (.ok t, st2)) := by
  obtain ⟨d, hD, hcase⟩ : ∃ d : String,
      jsDefault descv (.str "") = .str d ∧ (descv = .str d ∨ descv = .undef) := by
    rcases hdesc with rfl | ⟨d, rfl⟩
    · exact ⟨"", rfl, Or.inr rfl⟩
    · exact ⟨d, rfl, Or.inl rfl⟩
  refine ⟨?_, ?_, ?_, ?_⟩
  · cases title
    case str s =>
      rw [add_task_eval_str env signer s descv assignee d st hD]
      by_cases h1 : s = ""
      · subst h1
        rw [if_pos rfl]
        constructor
        · intro _
          exact Or.inl (by rintro ⟨s', hs', hne⟩; injection hs' with he; exact hne he.symm)
        · intro _
          exact ⟨"title is required", rfl⟩
      · by_cases h2 : s.length > 140
        · rw [if_neg h1, if_pos h2]
          constructor
          · intro _
            exact Or.inr (Or.inl ⟨s, rfl, h2⟩)
          · intro _
            exact ⟨"title exceeds 140 characters", rfl⟩
        · by_cases h3 : d.length > 1000
          · rw [if_neg h1, if_neg h2, if_pos h3]
            constructor
            · intro _
              rcases hcase with rfl | rfl
              · exact Or.inr (Or.inr ⟨d, rfl, h3⟩)
              · injection hD with he
                rw [← he] at h3
                exact absurd h3 (by decide)
            · intro _
              exact ⟨"desc exceeds 1000 characters", rfl⟩
          · rw [if_neg h1, if_neg h2, if_neg h3]
            constructor
            · rintro ⟨m, hm⟩
              exact absurd hm (by simp)
            · intro hrhs
              exfalso
              rcases hrhs with hA | hB | hC
              · exact hA ⟨s, rfl, h1⟩
              · obtain ⟨s', hs', hl⟩ := hB
                injection hs' with he
                rw [← he] at hl
                exact h2 hl
              · obtain ⟨d', hd', hl⟩ := hC
                rcases hcase with rfl | rfl
                · injection hd' with he
                  rw [← he] at hl
                  exact h3 hl
                · cases hd'
    all_goals
      rw [add_task_eval_notstr env signer _ descv assignee st
        (by intro s h; cases h)]
      constructor
      · intro _
        exact Or.inl (by rintro ⟨s, hs, _⟩; cases hs)
      · intro _
        exact ⟨"title is required", rfl⟩
  · intro hn
    have hA : ∃ s, title = .str s ∧ s ≠ "" := by
      by_contra hA2
      exact hn (Or.inl hA2)
    obtain ⟨s, rfl, hs⟩ := hA
    have hB : ¬ 140 < s.length := fun hl => hn (Or.inr (Or.inl ⟨s, rfl, hl⟩))
    have hC : ¬ 1000 < d.length := by
      intro hl
      rcases hcase with rfl | rfl
      · exact hn (Or.inr (Or.inr ⟨d, rfl, hl⟩))
      · injection hD with he
        rw [← he] at hl
        exact absurd hl (by decide)
    rw [add_task_eval_str env signer s descv assignee d st hD,
      if_neg hs, if_neg hB, if_neg hC]
    exact ⟨_, _, rfl⟩
  · rw [add_task_eval_str env signer _ .undef .undef (String.mk []) st rfl,
      if_neg (by decide), if_pos (by decide)]
  · rw [add_task_eval_str env signer _ .undef .undef (String.mk []) st rfl,
      if_neg (by decide), if_neg (by decide), if_neg (by decide)]
    exact ⟨_, _, rfl⟩

/-- Witness for C5: the 141-character boundary at a concrete signer and
store, with the desc hypothesis discharged. -/
theorem C5_witness :
    (add_task env0 "zoe" ⟨.str (⟨List.replicate 141 'a'⟩ : String), .undef, .undef⟩
      Store.empty).1 = .err (.validationError "title exceeds 140 characters") :=
  (C5_add_task_validation env0 "zoe" Store.empty .undef .undef .undef
    (Or.inl rfl)).2.2.1

end

/-- C6: a successful add_task advances task_seq by exactly one and returns
the id built from the new counter value; over any run from the empty store
the created ids are the counter values 1..k rendered through mkTaskId (the
task_ tag plus the zero-padded decimal counter) in allocation order, so
they are monotonically assigned and pairwise distinct regardless of titles;
ids of six-digit counter values have exactly six digits after the tag. -/
theorem C6_ids_unique_monotone (isAdmin : String → Bool) (ops : List Op)
    (clock : List Nat) :
    ∃ k, createdIds isAdmin ops clock Store.empty
        = (List.range' 1 k).map mkTaskId ∧
      (applyOps isAdmin ops clock Store.empty).counters "task_seq" = k ∧
      (createdIds isAdmin ops clock Store.empty).Nodup ∧
      (∀ n, n < 1000000 → (mkTaskId n).length = 11) := by
  obtain ⟨k, hc, hk⟩ := createdIds_spec isAdmin ops clock Store.empty
  refine ⟨k, hc, by simpa [Store.empty] using hk, ?_, fun n hn => mkTaskId_length hn⟩
  rw [hc]
  exact List.Nodup.map mkTaskId_injective (List.nodup_range' _ _)

/-- Witness for C6 on a concrete two-operation run. -/
theorem C6_witness :
    createdIds (fun _ => false)
      [.add "ann" "T" "" none, .complete "ann" "task_000001"] [3, 4] Store.empty
      = ["task_000001"] ∧
    (applyOps (fun _ => false)
      [.add "ann" "T" "" none, .complete "ann" "task_000001"] [3, 4]
      Store.empty).counters "task_seq" = 1 ∧
    (mkTaskId 1).length = 11 := by
  obtain ⟨k, hc, hk, hnd, hlen⟩ := C6_ids_unique_monotone (fun _ => false)
    [.add "ann" "T" "" none, .complete "ann" "task_000001"] [3, 4]
  exact ⟨by decide, by decide, hlen 1 (by decide)⟩

/-- C7: list_tasks takes its candidates from the assignee index when an
assignee filter is given (post-filtering by status via taskFilter, which
passes everything when status is absent), else from the status index when
only a status is given, else from tasks:all; absent records are skipped by
taskFilter, the result is a permutation of the filtered candidates sorted
descending by created_at, and count equals the number of returned tasks. -/
theorem C7_list_tasks_resolution (st : Store) (p : ListParams) :
    (optTruthy p.assignee = true →
      (list_tasks st p).tasks.Perm
        ((st.smembers ("tasks:assignee:" ++ p.assignee.getD "")).filterMap
          (taskFilter st p.status))) ∧
    (optTruthy p.assignee = false → optTruthy p.status = true →
      (list_tasks st p).tasks.Perm
        ((st.smembers ("tasks:" ++ p.status.getD "")).filterMap
          (taskFilter st p.status))) ∧
    (optTruthy p.assignee = false → optTruthy p.status = false →
      (list_tasks st p).tasks.Perm
        ((st.smembers "tasks:all").filterMap (taskFilter st p.status))) ∧
    (list_tasks st p).tasks.Pairwise (fun a b => b.created_at ≤ a.created_at) ∧
    (list_tasks st p).count = (list_tasks st p).tasks.length := by
  have hperm : (((candidateIds st p).filterMap (taskFilter st p.status)).mergeSort
      byCreatedDesc).Perm ((candidateIds st p).filterMap (taskFilter st p.status)) :=
    List.mergeSort_perm _ _
  refine ⟨?_, ?_, ?_, ?_, rfl⟩
  · intro h1
    have hcand : candidateIds st p
        = st.smembers ("tasks:assignee:" ++ p.assignee.getD "") := by
      unfold candidateIds
      rw [if_pos h1]
    exact hcand ▸ hperm
  · intro h1 h2
    have hcand : candidateIds st p = st.smembers ("tasks:" ++ p.status.getD "") := by
      unfold candidateIds
      rw [if_neg (by simp [h1]), if_pos h2]
    exact hcand ▸ hperm
  · intro h1 h2
    have hcand : candidateIds st p = st.smembers "tasks:all" := by
      unfold candidateIds
      rw [if_neg (by simp [h1]), if_neg (by simp [h2])]
    exact hcand ▸ hperm
  · have htrans : ∀ a b c : Task, byCreatedDesc a b = true → byCreatedDesc b c = true →
        byCreatedDesc a c = true := by
      intro a b c hab hbc
      simp only [byCreatedDesc, decide_eq_true_eq] at hab hbc ⊢
      omega
    have htotal : ∀ a b : Task, (byCreatedDesc a b || byCreatedDesc b a) = true := by
      intro a b
      simp only [byCreatedDesc, Bool.or_eq_true, decide_eq_true_eq]
      omega
    have hs := List.sorted_mergeSort htrans htotal
      ((candidateIds st p).filterMap (taskFilter st p.status))
    exact hs.imp fun h => by simpa [byCreatedDesc] using h

/-- Witness for C7: the assignee branch on the demo store. -/
theorem C7_witness :
    optTruthy (some "bob") = true ∧
    (list_tasks demoStore ⟨none, some "bob"⟩).tasks.Perm
      ((demoStore.smembers
        ("tasks:assignee:" ++ (some "bob" : Option String).getD "")).filterMap
        (taskFilter demoStore none)) := by
  refine ⟨by decide, ?_⟩
  exact (C7_list_tasks_resolution demoStore ⟨none, some "bob"⟩).1 (by decide)

/-- C8: whenever add_task, complete_task or cancel_task throws one of the
contract errors, the store it returns is exactly the input store — every
check precedes the first write, so the counter, the records and every index
set are untouched. -/
theorem C8_errors_leave_store_untouched (env : Env) (signer id : String)
    (p : AddParams) (st : Store) :
    (∀ e, (add_task env signer p st).1 = .err e →
      (add_task env signer p st).2 = st) ∧
    (∀ e, (complete_task env signer id st).1 = .err e →
      (complete_task env signer id st).2 = st) ∧
    (∀ e, (cancel_task env signer id st).1 = .err e →
      (cancel_task env signer id st).2 = st) :=
  ⟨fun e h => add_task_err_snd env signer p st e h,
   fun e h => complete_task_err_snd env signer id st e h,
   fun e h => cancel_task_err_snd env signer id st e h⟩

/-- Witness for C8 at three concrete failing transactions. -/
theorem C8_witness :
    (add_task env0 "al" ⟨.undef, .undef, .undef⟩ Store.empty).2 = Store.empty ∧
    (complete_task env0 "al" "task_000009" Store.empty).2 = Store.empty ∧
    (cancel_task env0 "al" "" demoStore).2 = demoStore := by
  have h := C8_errors_leave_store_untouched env0 "al" "task_000009"
    ⟨.undef, .undef, .undef⟩ Store.empty
  refine ⟨h.1 (.validationError "title is required") (by decide),
    h.2.1 (.notFoundError ("Task " ++ "task_000009" ++ " not found")) (by decide), ?_⟩
  exact (C8_errors_leave_store_untouched env0 "al" "" ⟨.undef, .undef, .undef⟩
    demoStore).2.2 (.validationError "id is required") (by decide)

section

set_option maxRecDepth 10000

/-- C9: add_task validates the untrimmed title but stores the trimmed
strings: a whitespace-only title passes validation and produces a task
whose stored title is empty, while a 141-character title whose trimmed
length is 140 is rejected. -/
theorem C9_untrimmed_validation_trimmed_storage :
    (∃ t st2, add_task env0 "alice" ⟨.str " ", .undef, .undef⟩ Store.empty
      = (.ok t, st2) ∧ t.title = "") ∧
    ((add_task env0 "alice" ⟨.str title141, .undef, .undef⟩ Store.empty).1
      = .err (.validationError "title exceeds 140 characters")) ∧
    title141.length = 141 ∧ (jsTrim title141).length = 140 := by
  refine ⟨⟨_, _, rfl, by decide⟩, by decide, by decide, by decide⟩

end

/-- C10: the empty-string default on desc applies only to undefined, so an
explicitly null desc faults with a TypeError at desc.length before any
write, and a non-string non-null desc (a number or a boolean) faults at
desc.trim() — neither raises a ValidationError. -/
theorem C10_desc_null_faults :
    (add_task env0 "alice" ⟨.str "Fix bug", .nullv, .undef⟩ Store.empty
      = (.fault "TypeError: cannot read length of null", Store.empty)) ∧
    ((add_task env0 "alice" ⟨.str "Fix bug", .num 42, .undef⟩ Store.empty).1
      = .fault "TypeError: desc.trim is not a function") ∧
    ((add_task env0 "alice" ⟨.str "Fix bug", .boolv true, .undef⟩ Store.empty).1
      = .fault "TypeError: desc.trim is not a function") :=
  ⟨rfl, rfl, rfl⟩

end InterTask
